import Mathlib

/-!
# Verification of the RW-Payment-Utils card-charge pipeline

This file gives a shallow embedding of the Flutterwave card-charge utilities
(`src/flutterwaveApiUtils.ts` together with the type declarations shipped with
the repository) and proves, or refutes, the specified properties of the
pipeline: payload construction, the 3DES-ECB/base64 encryption envelope, and
the interpretation of gateway responses.

The cipher layer models what the `node-forge` calls in `encryptCardData`
perform: PKCS#7 padding to 8-byte blocks, DES in EDE (encrypt-decrypt-encrypt)
triple mode applied block-wise (ECB, empty IV), and base64 output.  Bytes are
`Nat` values below 256, bit strings are `List Bool` (most significant bit of
the first byte first, matching the DES convention of numbering bit 1 as the
leading bit).
-/

/-! ## Bits and bytes -/

/-- Little-endian bits of `x`, `n` positions wide (index 0 is the least
significant bit). -/
def natToBits : Nat → Nat → List Bool
  | 0, _ => []
  | n + 1, x => decide (x % 2 = 1) :: natToBits n (x / 2)

/-- Value of a little-endian bit list. -/
def bitsToNat : List Bool → Nat
  | [] => 0
  | b :: t => (cond b 1 0) + 2 * bitsToNat t

@[simp] theorem natToBits_length (n x : Nat) : (natToBits n x).length = n := by
  induction n generalizing x with
  | zero => rfl
  | succ n ih => simp [natToBits, ih]

theorem bitsToNat_lt (l : List Bool) : bitsToNat l < 2 ^ l.length := by
  induction l with
  | nil => simp [bitsToNat]
  | cons b t ih =>
    simp only [bitsToNat, List.length_cons, pow_succ]
    cases b <;> simp <;> omega

theorem bitsToNat_natToBits (n x : Nat) (h : x < 2 ^ n) :
    bitsToNat (natToBits n x) = x := by
  induction n generalizing x with
  | zero => simp [natToBits, bitsToNat]; omega
  | succ n ih =>
    have hx : x / 2 < 2 ^ n := by
      have := Nat.pow_succ 2 n
      omega
    simp only [natToBits, bitsToNat, ih (x / 2) hx]
    rcases Nat.mod_two_eq_zero_or_one x with h2 | h2 <;> simp [h2] <;> omega

theorem natToBits_bitsToNat (l : List Bool) :
    natToBits l.length (bitsToNat l) = l := by
  induction l with
  | nil => rfl
  | cons b t ih =>
    simp only [List.length_cons, natToBits, bitsToNat]
    cases b with
    | false =>
      have h1 : (0 + 2 * bitsToNat t) % 2 = 0 := by omega
      have h2 : (0 + 2 * bitsToNat t) / 2 = bitsToNat t := by omega
      simp only [cond, h1, h2, ih]
      simp
    | true =>
      have h1 : (1 + 2 * bitsToNat t) % 2 = 1 := by omega
      have h2 : (1 + 2 * bitsToNat t) / 2 = bitsToNat t := by omega
      simp only [cond, h1, h2, ih]
      simp

/-- Bits of one byte, most significant bit first (DES numbering). -/
def byteToBits (b : Nat) : List Bool := (natToBits 8 b).reverse

/-- Byte value of eight bits given most significant bit first. -/
def bitsToByte (l : List Bool) : Nat := bitsToNat l.reverse

@[simp] theorem byteToBits_length (b : Nat) : (byteToBits b).length = 8 := by
  simp [byteToBits]

theorem bitsToByte_byteToBits (b : Nat) (h : b < 256) :
    bitsToByte (byteToBits b) = b := by
  simp [bitsToByte, byteToBits, bitsToNat_natToBits 8 b h]

theorem byteToBits_bitsToByte (l : List Bool) (h : l.length = 8) :
    byteToBits (bitsToByte l) = l := by
  have h8 : l.reverse.length = 8 := by simp [h]
  simp only [byteToBits, bitsToByte]
  rw [← h8, natToBits_bitsToNat, List.reverse_reverse]

theorem bitsToByte_lt (l : List Bool) (h : l.length ≤ 8) : bitsToByte l < 256 := by
  have := bitsToNat_lt l.reverse
  have hle : (2 : Nat) ^ l.reverse.length ≤ 2 ^ 8 :=
    Nat.pow_le_pow_right (by norm_num) (by simpa using h)
  calc bitsToNat l.reverse < 2 ^ l.reverse.length := this
    _ ≤ 256 := hle

/-! ## Bit permutations

DES permutation tables are kept 1-indexed as in FIPS 46-3; `applyPerm`
subtracts one when selecting input bits. -/

/-- Select output bits from `bits` according to a 1-indexed table. -/
def applyPerm (t : List Nat) (bits : List Bool) : List Bool :=
  t.map (fun i => bits.getD (i - 1) false)

@[simp] theorem applyPerm_length (t : List Nat) (bits : List Bool) :
    (applyPerm t bits).length = t.length := by
  simp [applyPerm]

theorem applyPerm_applyPerm (t2 t1 : List Nat) (bits : List Bool)
    (h : ∀ i ∈ t2, i - 1 < t1.length) :
    applyPerm t2 (applyPerm t1 bits) =
      applyPerm (t2.map (fun i => t1.getD (i - 1) 0)) bits := by
  simp only [applyPerm, List.map_map]
  apply List.map_congr_left
  intro i hi
  have hlt : i - 1 < t1.length := h i hi
  have hlt2 : i - 1 < (t1.map (fun j => bits.getD (j - 1) false)).length := by
    simpa using hlt
  simp only [Function.comp]
  rw [List.getD_eq_getElem t1 0 hlt, List.getD_eq_getElem _ false hlt2,
    List.getElem_map]

theorem map_range_getD (l : List Bool) :
    (List.range l.length).map (fun i => l.getD i false) = l := by
  induction l with
  | nil => simp
  | cons a t ih =>
    rw [List.length_cons, List.range_succ_eq_map]
    simp only [List.map_cons, List.getD_cons_zero, List.map_map]
    congr 1

theorem applyPerm_identity (n : Nat) (bits : List Bool) (h : bits.length = n) :
    applyPerm ((List.range n).map (· + 1)) bits = bits := by
  subst h
  simp only [applyPerm, List.map_map]
  calc (List.range bits.length).map ((fun i => bits.getD (i - 1) false) ∘ (· + 1))
      = (List.range bits.length).map (fun i => bits.getD i false) := by
        apply List.map_congr_left; intro i _; simp
    _ = bits := map_range_getD bits

/-! ## Feistel structure -/

/-- Run the DES Feistel rounds: each subkey sends `(L, R)` to
`(R, L xor f k R)`. -/
def feistelRun (f : List Bool → Nat → Nat) (ks : List (List Bool))
    (s : Nat × Nat) : Nat × Nat :=
  ks.foldl (fun st k => (st.2, st.1 ^^^ f k st.2)) s

@[simp] theorem feistelRun_nil (f : List Bool → Nat → Nat) (s : Nat × Nat) :
    feistelRun f [] s = s := rfl

theorem feistelRun_cons (f : List Bool → Nat → Nat) (k : List Bool)
    (ks : List (List Bool)) (s : Nat × Nat) :
    feistelRun f (k :: ks) s = feistelRun f ks (s.2, s.1 ^^^ f k s.2) := rfl

theorem feistelRun_append (f : List Bool → Nat → Nat)
    (ks1 ks2 : List (List Bool)) (s : Nat × Nat) :
    feistelRun f (ks1 ++ ks2) s = feistelRun f ks2 (feistelRun f ks1 s) := by
  simp [feistelRun, List.foldl_append]

/-- Running the rounds with the reversed key schedule undoes the rounds, up
to swapping the halves.  This is the standard Feistel inversion argument and
holds for every round function. -/
theorem feistelRun_reverse (f : List Bool → Nat → Nat)
    (ks : List (List Bool)) (s : Nat × Nat) :
    feistelRun f ks.reverse
      ((feistelRun f ks s).2, (feistelRun f ks s).1) = (s.2, s.1) := by
  induction ks generalizing s with
  | nil => rfl
  | cons k t ih =>
    rw [feistelRun_cons, List.reverse_cons, feistelRun_append]
    rw [ih (s.2, s.1 ^^^ f k s.2)]
    show (s.2, (s.1 ^^^ f k s.2) ^^^ f k s.2) = (s.2, s.1)
    rw [Nat.xor_assoc, Nat.xor_self, Nat.xor_zero]

theorem feistelRun_bound (f : List Bool → Nat → Nat)
    (hf : ∀ k r, f k r < 2 ^ 32) (ks : List (List Bool)) (s : Nat × Nat)
    (h1 : s.1 < 2 ^ 32) (h2 : s.2 < 2 ^ 32) :
    (feistelRun f ks s).1 < 2 ^ 32 ∧ (feistelRun f ks s).2 < 2 ^ 32 := by
  induction ks generalizing s with
  | nil => exact ⟨h1, h2⟩
  | cons k t ih =>
    rw [feistelRun_cons]
    exact ih (s.2, s.1 ^^^ f k s.2) h2 (Nat.xor_lt_two_pow h1 (hf k s.2))

/-! ## Chunking -/

/-- Split a list into consecutive chunks of `n` elements (the last chunk may
be shorter).  For `n = 0` every chunk is a singleton. -/
def chunks (n : Nat) : List α → List (List α)
  | [] => []
  | a :: rest => (a :: rest.take (n - 1)) :: chunks n (rest.drop (n - 1))
termination_by l => l.length
decreasing_by
  simp only [List.length_drop, List.length_cons]
  omega

@[simp] theorem chunks_nil (n : Nat) : chunks n ([] : List α) = [] := by
  unfold chunks
  rfl

theorem chunks_cons (n : Nat) (a : α) (rest : List α) :
    chunks n (a :: rest) =
      (a :: rest.take (n - 1)) :: chunks n (rest.drop (n - 1)) := by
  conv_lhs => unfold chunks

theorem flatten_chunks (n : Nat) (l : List α) : (chunks n l).flatten = l := by
  generalize hN : l.length = N
  induction N using Nat.strong_induction_on generalizing l with
  | _ N ih =>
    cases l with
    | nil => simp
    | cons a rest =>
      rw [chunks_cons, List.flatten_cons]
      rw [ih (rest.drop (n - 1)).length (by simp at hN ⊢; omega) _ rfl]
      simp [List.take_append_drop]

theorem chunks_append_of_length (n : Nat) (hn : 0 < n) (b l : List α)
    (hb : b.length = n) : chunks n (b ++ l) = b :: chunks n l := by
  cases b with
  | nil => simp at hb; omega
  | cons x xs =>
    have hxs : xs.length = n - 1 := by simp at hb; omega
    rw [List.cons_append, chunks_cons]
    rw [← hxs, List.take_left, List.drop_left]

theorem chunks_flatten (n : Nat) (hn : 0 < n) (L : List (List α))
    (h : ∀ b ∈ L, b.length = n) : chunks n L.flatten = L := by
  induction L with
  | nil => simp
  | cons b t ih =>
    rw [List.flatten_cons, chunks_append_of_length n hn b t.flatten (h b (by simp))]
    rw [ih (fun x hx => h x (by simp [hx]))]

theorem chunks_length_le (n : Nat) (l : List α) (c : List α)
    (hc : c ∈ chunks n l) : c.length ≤ max 1 n := by
  generalize hN : l.length = N
  induction N using Nat.strong_induction_on generalizing l with
  | _ N ih =>
    cases l with
    | nil => simp at hc
    | cons a rest =>
      rw [chunks_cons] at hc
      rcases List.mem_cons.mp hc with h | h
      · subst h
        have := List.length_take_le (n - 1) rest
        simp only [List.length_cons]
        omega
      · exact ih (rest.drop (n - 1)).length (by simp at hN ⊢; omega) _ h rfl

theorem chunks_length_eq (n : Nat) (hn : 0 < n) (l : List α) (c : List α)
    (hmod : l.length % n = 0) (hc : c ∈ chunks n l) : c.length = n := by
  generalize hN : l.length = N
  induction N using Nat.strong_induction_on generalizing l with
  | _ N ih =>
    cases l with
    | nil => simp at hc
    | cons a rest =>
      rw [chunks_cons] at hc
      have hlen : rest.length ≥ n - 1 := by
        by_contra hcon
        have h1 : (a :: rest).length % n = 0 := hmod
        simp only [List.length_cons] at h1
        have : rest.length + 1 < n := by omega
        have := Nat.mod_eq_of_lt this
        omega
      rcases List.mem_cons.mp hc with h | h
      · subst h
        simp [List.length_take, Nat.min_eq_left hlen]
        omega
      · refine ih (rest.drop (n - 1)).length ?_ _ ?_ h rfl
        · simp at hN ⊢; omega
        · simp only [List.length_drop]
          have h1 : (rest.length + 1) % n = 0 := by simpa using hmod
          obtain ⟨q, hq⟩ := Nat.dvd_of_mod_eq_zero h1
          cases q with
          | zero => omega
          | succ q2 =>
            have hq2 : rest.length + 1 = n * q2 + n := by rw [hq]; ring
            have hq3 : rest.length - (n - 1) = n * q2 := by omega
            rw [hq3]
            exact Nat.mul_mod_right n q2

theorem mem_of_mem_chunks (n : Nat) (l : List α) (c : List α) (x : α)
    (hc : c ∈ chunks n l) (hx : x ∈ c) : x ∈ l := by
  have : x ∈ (chunks n l).flatten := List.mem_flatten.mpr ⟨c, hc, hx⟩
  rwa [flatten_chunks] at this

/-! ## DES

The Data Encryption Standard as used by the `3DES-ECB` forge cipher that
`encryptCardData` creates.  Tables are quoted 1-indexed from FIPS 46-3. -/

/-- Initial permutation IP. -/
def ipTable : List Nat :=
  [58, 50, 42, 34, 26, 18, 10, 2, 60, 52, 44, 36, 28, 20, 12, 4,
   62, 54, 46, 38, 30, 22, 14, 6, 64, 56, 48, 40, 32, 24, 16, 8,
   57, 49, 41, 33, 25, 17, 9, 1, 59, 51, 43, 35, 27, 19, 11, 3,
   61, 53, 45, 37, 29, 21, 13, 5, 63, 55, 47, 39, 31, 23, 15, 7]

/-- Final permutation, the inverse of IP. -/
def fpTable : List Nat :=
  [40, 8, 48, 16, 56, 24, 64, 32, 39, 7, 47, 15, 55, 23, 63, 31,
   38, 6, 46, 14, 54, 22, 62, 30, 37, 5, 45, 13, 53, 21, 61, 29,
   36, 4, 44, 12, 52, 20, 60, 28, 35, 3, 43, 11, 51, 19, 59, 27,
   34, 2, 42, 10, 50, 18, 58, 26, 33, 1, 41, 9, 49, 17, 57, 25]

/-- Expansion E from 32 to 48 bits. -/
def eTable : List Nat :=
  [32, 1, 2, 3, 4, 5, 4, 5, 6, 7, 8, 9, 8, 9, 10, 11, 12, 13,
   12, 13, 14, 15, 16, 17, 16, 17, 18, 19, 20, 21, 20, 21, 22, 23, 24, 25,
   24, 25, 26, 27, 28, 29, 28, 29, 30, 31, 32, 1]

/-- Permutation P inside the round function. -/
def pTable : List Nat :=
  [16, 7, 20, 21, 29, 12, 28, 17, 1, 15, 23, 26, 5, 18, 31, 10,
   2, 8, 24, 14, 32, 27, 3, 9, 19, 13, 30, 6, 22, 11, 4, 25]

/-- Permuted choice 1 of the key schedule. -/
def pc1Table : List Nat :=
  [57, 49, 41, 33, 25, 17, 9, 1, 58, 50, 42, 34, 26, 18,
   10, 2, 59, 51, 43, 35, 27, 19, 11, 3, 60, 52, 44, 36,
   63, 55, 47, 39, 31, 23, 15, 7, 62, 54, 46, 38, 30, 22,
   14, 6, 61, 53, 45, 37, 29, 21, 13, 5, 28, 20, 12, 4]

/-- Permuted choice 2 of the key schedule. -/
def pc2Table : List Nat :=
  [14, 17, 11, 24, 1, 5, 3, 28, 15, 6, 21, 10,
   23, 19, 12, 4, 26, 8, 16, 7, 27, 20, 13, 2,
   41, 52, 31, 37, 47, 55, 30, 40, 51, 45, 33, 48,
   44, 49, 39, 56, 34, 53, 46, 42, 50, 36, 29, 32]

/-- Left-shift amounts of the sixteen key-schedule rounds. -/
def shiftSchedule : List Nat := [1, 1, 2, 2, 2, 2, 2, 2, 1, 2, 2, 2, 2, 2, 2, 1]

/-- Selection boxes S1 to S8, each flattened row-major (4 rows of 16). -/
def sbox1 : List Nat :=
  [14, 4, 13, 1, 2, 15, 11, 8, 3, 10, 6, 12, 5, 9, 0, 7,
   0, 15, 7, 4, 14, 2, 13, 1, 10, 6, 12, 11, 9, 5, 3, 8,
   4, 1, 14, 8, 13, 6, 2, 11, 15, 12, 9, 7, 3, 10, 5, 0,
   15, 12, 8, 2, 4, 9, 1, 7, 5, 11, 3, 14, 10, 0, 6, 13]

def sbox2 : List Nat :=
  [15, 1, 8, 14, 6, 11, 3, 4, 9, 7, 2, 13, 12, 0, 5, 10,
   3, 13, 4, 7, 15, 2, 8, 14, 12, 0, 1, 10, 6, 9, 11, 5,
   0, 14, 7, 11, 10, 4, 13, 1, 5, 8, 12, 6, 9, 3, 2, 15,
   13, 8, 10, 1, 3, 15, 4, 2, 11, 6, 7, 12, 0, 5, 14, 9]

def sbox3 : List Nat :=
  [10, 0, 9, 14, 6, 3, 15, 5, 1, 13, 12, 7, 11, 4, 2, 8,
   13, 7, 0, 9, 3, 4, 6, 10, 2, 8, 5, 14, 12, 11, 15, 1,
   13, 6, 4, 9, 8, 15, 3, 0, 11, 1, 2, 12, 5, 10, 14, 7,
   1, 10, 13, 0, 6, 9, 8, 7, 4, 15, 14, 3, 11, 5, 2, 12]

def sbox4 : List Nat :=
  [7, 13, 14, 3, 0, 6, 9, 10, 1, 2, 8, 5, 11, 12, 4, 15,
   13, 8, 11, 5, 6, 15, 0, 3, 4, 7, 2, 12, 1, 10, 14, 9,
   10, 6, 9, 0, 12, 11, 7, 13, 15, 1, 3, 14, 5, 2, 8, 4,
   3, 15, 0, 6, 10, 1, 13, 8, 9, 4, 5, 11, 12, 7, 2, 14]

def sbox5 : List Nat :=
  [2, 12, 4, 1, 7, 10, 11, 6, 8, 5, 3, 15, 13, 0, 14, 9,
   14, 11, 2, 12, 4, 7, 13, 1, 5, 0, 15, 10, 3, 9, 8, 6,
   4, 2, 1, 11, 10, 13, 7, 8, 15, 9, 12, 5, 6, 3, 0, 14,
   11, 8, 12, 7, 1, 14, 2, 13, 6, 15, 0, 9, 10, 4, 5, 3]

def sbox6 : List Nat :=
  [12, 1, 10, 15, 9, 2, 6, 8, 0, 13, 3, 4, 14, 7, 5, 11,
   10, 15, 4, 2, 7, 12, 9, 5, 6, 1, 13, 14, 0, 11, 3, 8,
   9, 14, 15, 5, 2, 8, 12, 3, 7, 0, 4, 10, 1, 13, 11, 6,
   4, 3, 2, 12, 9, 5, 15, 10, 11, 14, 1, 7, 6, 0, 8, 13]

def sbox7 : List Nat :=
  [4, 11, 2, 14, 15, 0, 8, 13, 3, 12, 9, 7, 5, 10, 6, 1,
   13, 0, 11, 7, 4, 9, 1, 10, 14, 3, 5, 12, 2, 15, 8, 6,
   1, 4, 11, 13, 12, 3, 7, 14, 10, 15, 6, 8, 0, 5, 9, 2,
   6, 11, 13, 8, 1, 4, 10, 7, 9, 5, 0, 15, 14, 2, 3, 12]

def sbox8 : List Nat :=
  [13, 2, 8, 4, 6, 15, 11, 1, 10, 9, 3, 14, 5, 0, 12, 7,
   1, 15, 13, 8, 10, 3, 7, 4, 12, 5, 6, 11, 0, 14, 9, 2,
   7, 11, 4, 1, 9, 12, 14, 2, 0, 6, 10, 13, 15, 3, 5, 8,
   2, 1, 14, 7, 4, 10, 8, 13, 15, 12, 9, 0, 3, 5, 6, 11]

def sboxes : List (List Nat) := [sbox1, sbox2, sbox3, sbox4, sbox5, sbox6, sbox7, sbox8]

/-- Look up one 6-bit group in an S-box: outer bits select the row, inner
bits the column. -/
def sboxChunk (box : List Nat) (g : List Bool) : List Bool :=
  let row := (cond (g.getD 0 false) 2 0) + (cond (g.getD 5 false) 1 0)
  let col := bitsToByte ((g.drop 1).take 4)
  (natToBits 4 (box.getD (row * 16 + col) 0)).reverse

/-- Apply the eight S-boxes to a 48-bit string. -/
def sboxLookup (x : List Bool) : List Bool :=
  (List.zipWith sboxChunk sboxes (chunks 6 x)).flatten

/-- The DES round function: expansion, subkey mix, S-boxes, permutation P. -/
def desF (k : List Bool) (r : Nat) : Nat :=
  let rbits := (natToBits 32 r).reverse
  let e := applyPerm eTable rbits
  let x := List.zipWith xor e k
  bitsToNat (applyPerm pTable (sboxLookup x)).reverse

theorem desF_lt (k : List Bool) (r : Nat) : desF k r < 2 ^ 32 := by
  have h : (applyPerm pTable (sboxLookup (List.zipWith xor
      (applyPerm eTable (natToBits 32 r).reverse) k))).reverse.length = 32 := by
    simp [pTable]
  unfold desF
  have := bitsToNat_lt (applyPerm pTable (sboxLookup (List.zipWith xor
      (applyPerm eTable (natToBits 32 r).reverse) k))).reverse
  rw [h] at this
  exact this

/-- Rotate a half-key left by `n` positions. -/
def rotl (n : Nat) (l : List Bool) : List Bool := l.drop n ++ l.take n

/-- Produce the sixteen 48-bit round keys. -/
def keyScheduleAux : List Nat → List Bool → List Bool → List (List Bool)
  | [], _, _ => []
  | sh :: rest, c, d =>
    let c2 := rotl sh c
    let d2 := rotl sh d
    applyPerm pc2Table (c2 ++ d2) :: keyScheduleAux rest c2 d2

/-- DES key schedule over the 64 key bits. -/
def keySchedule (keyBits : List Bool) : List (List Bool) :=
  let p := applyPerm pc1Table keyBits
  keyScheduleAux shiftSchedule (p.take 28) (p.drop 28)

/-- One DES block transformation: IP, sixteen Feistel rounds, swap of the
halves, final permutation.  Decryption is the same walk with the round keys
reversed. -/
def desBlock (f : List Bool → Nat → Nat) (ks : List (List Bool))
    (bits : List Bool) : List Bool :=
  let p := applyPerm ipTable bits
  let t := feistelRun f ks
    (bitsToNat (p.take 32).reverse, bitsToNat (p.drop 32).reverse)
  applyPerm fpTable ((natToBits 32 t.2).reverse ++ (natToBits 32 t.1).reverse)

@[simp] theorem desBlock_length (f : List Bool → Nat → Nat)
    (ks : List (List Bool)) (bits : List Bool) :
    (desBlock f ks bits).length = 64 := by
  simp [desBlock, fpTable]

theorem ip_fp_cancel (q : List Bool) (h : q.length = 64) :
    applyPerm ipTable (applyPerm fpTable q) = q := by
  rw [applyPerm_applyPerm ipTable fpTable q (by decide)]
  rw [show ipTable.map (fun i => fpTable.getD (i - 1) 0) =
      (List.range 64).map (· + 1) from by decide]
  exact applyPerm_identity 64 q h

theorem fp_ip_cancel (q : List Bool) (h : q.length = 64) :
    applyPerm fpTable (applyPerm ipTable q) = q := by
  rw [applyPerm_applyPerm fpTable ipTable q (by decide)]
  rw [show fpTable.map (fun i => ipTable.getD (i - 1) 0) =
      (List.range 64).map (· + 1) from by decide]
  exact applyPerm_identity 64 q h

/-- Walking a DES block with the reversed round keys inverts the walk with
the original keys; this depends only on the Feistel structure, the bound of
the round function, and IP and FP being mutually inverse. -/
theorem desBlock_desBlock (f : List Bool → Nat → Nat)
    (hf : ∀ k r, f k r < 2 ^ 32) (ks : List (List Bool)) (bits : List Bool)
    (h : bits.length = 64) :
    desBlock f ks.reverse (desBlock f ks bits) = bits := by
  have hp : (applyPerm ipTable bits).length = 64 := by simp [ipTable]
  have htk : ((applyPerm ipTable bits).take 32).reverse.length = 32 := by
    simp [hp]
  have hdr : ((applyPerm ipTable bits).drop 32).reverse.length = 32 := by
    simp [hp]
  have ha : bitsToNat ((applyPerm ipTable bits).take 32).reverse < 2 ^ 32 := by
    have := bitsToNat_lt ((applyPerm ipTable bits).take 32).reverse
    rwa [htk] at this
  have hb : bitsToNat ((applyPerm ipTable bits).drop 32).reverse < 2 ^ 32 := by
    have := bitsToNat_lt ((applyPerm ipTable bits).drop 32).reverse
    rwa [hdr] at this
  have hbound := feistelRun_bound f hf ks
    (bitsToNat ((applyPerm ipTable bits).take 32).reverse,
     bitsToNat ((applyPerm ipTable bits).drop 32).reverse) ha hb
  set t := feistelRun f ks
    (bitsToNat ((applyPerm ipTable bits).take 32).reverse,
     bitsToNat ((applyPerm ipTable bits).drop 32).reverse) with ht
  show desBlock f ks.reverse
      (applyPerm fpTable
        ((natToBits 32 t.2).reverse ++ (natToBits 32 t.1).reverse)) = bits
  unfold desBlock
  rw [ip_fp_cancel _ (by simp)]
  dsimp only
  rw [List.take_left' (by simp), List.drop_left' (by simp)]
  rw [List.reverse_reverse, List.reverse_reverse]
  rw [show bitsToNat (natToBits 32 t.2) = t.2 from
    bitsToNat_natToBits 32 t.2 hbound.2]
  rw [show bitsToNat (natToBits 32 t.1) = t.1 from
    bitsToNat_natToBits 32 t.1 hbound.1]
  rw [ht, feistelRun_reverse]
  rw [show natToBits 32 (bitsToNat ((applyPerm ipTable bits).take 32).reverse) =
      ((applyPerm ipTable bits).take 32).reverse from by
    conv_lhs => rw [← htk]
    exact natToBits_bitsToNat ((applyPerm ipTable bits).take 32).reverse]
  rw [show natToBits 32 (bitsToNat ((applyPerm ipTable bits).drop 32).reverse) =
      ((applyPerm ipTable bits).drop 32).reverse from by
    conv_lhs => rw [← hdr]
    exact natToBits_bitsToNat ((applyPerm ipTable bits).drop 32).reverse]
  rw [List.reverse_reverse, List.reverse_reverse, List.take_append_drop]
  exact fp_ip_cancel bits h

theorem desBlock_desBlock_rev (f : List Bool → Nat → Nat)
    (hf : ∀ k r, f k r < 2 ^ 32) (ks : List (List Bool)) (bits : List Bool)
    (h : bits.length = 64) :
    desBlock f ks (desBlock f ks.reverse bits) = bits := by
  have := desBlock_desBlock f hf ks.reverse bits h
  rwa [List.reverse_reverse] at this

/-- DES encryption of one 64-bit block. -/
def desEncryptBlock (ks : List (List Bool)) (bits : List Bool) : List Bool :=
  desBlock desF ks bits

/-- DES decryption of one 64-bit block: same walk, round keys reversed. -/
def desDecryptBlock (ks : List (List Bool)) (bits : List Bool) : List Bool :=
  desBlock desF ks.reverse bits

theorem desDecryptBlock_desEncryptBlock (ks : List (List Bool))
    (bits : List Bool) (h : bits.length = 64) :
    desDecryptBlock ks (desEncryptBlock ks bits) = bits :=
  desBlock_desBlock desF desF_lt ks bits h

theorem desEncryptBlock_desDecryptBlock (ks : List (List Bool))
    (bits : List Bool) (h : bits.length = 64) :
    desEncryptBlock ks (desDecryptBlock ks bits) = bits :=
  desBlock_desBlock_rev desF desF_lt ks bits h

/-! ## Triple DES (EDE), bytes, PKCS#7 and ECB -/

/-- Bit string of a byte list, most significant bit of each byte first. -/
def bytesToBits (bs : List Nat) : List Bool := (bs.map byteToBits).flatten

/-- Byte list of a bit string, eight bits per byte. -/
def bitsToBytes (bits : List Bool) : List Nat := (chunks 8 bits).map bitsToByte

@[simp] theorem bytesToBits_length (bs : List Nat) :
    (bytesToBits bs).length = 8 * bs.length := by
  induction bs with
  | nil => simp [bytesToBits]
  | cons b t ih =>
    unfold bytesToBits at ih ⊢
    rw [List.map_cons, List.flatten_cons, List.length_append, byteToBits_length,
      ih, List.length_cons]
    ring

theorem bitsToBytes_bytesToBits (bs : List Nat) (h : ∀ b ∈ bs, b < 256) :
    bitsToBytes (bytesToBits bs) = bs := by
  unfold bitsToBytes bytesToBits
  rw [chunks_flatten 8 (by norm_num) (bs.map byteToBits)
    (by intro c hc; rcases List.mem_map.mp hc with ⟨b, _, rfl⟩; simp)]
  rw [List.map_map]
  calc bs.map (bitsToByte ∘ byteToBits)
      = bs.map id := by
        apply List.map_congr_left
        intro b hb
        exact bitsToByte_byteToBits b (h b hb)
    _ = bs := List.map_id bs

theorem bytesToBits_bitsToBytes (bits : List Bool) (h : bits.length % 8 = 0) :
    bytesToBits (bitsToBytes bits) = bits := by
  unfold bitsToBytes bytesToBits
  rw [List.map_map]
  have hc : ∀ c ∈ chunks 8 bits, c.length = 8 := fun c hc =>
    chunks_length_eq 8 (by norm_num) bits c h hc
  calc ((chunks 8 bits).map (byteToBits ∘ bitsToByte)).flatten
      = ((chunks 8 bits).map id).flatten := by
        congr 1
        apply List.map_congr_left
        intro c hcm
        exact byteToBits_bitsToByte c (hc c hcm)
    _ = bits := by rw [List.map_id]; exact flatten_chunks 8 bits

theorem bitsToBytes_lt (bits : List Bool) (b : Nat) (hb : b ∈ bitsToBytes bits) :
    b < 256 := by
  unfold bitsToBytes at hb
  rcases List.mem_map.mp hb with ⟨c, hc, rfl⟩
  exact bitsToByte_lt c (by simpa using chunks_length_le 8 bits c hc)

/-- The three DES key schedules of a 24-byte 3DES key, as forge derives them
from the configured encryption key. -/
def tdesKeys (keyBytes : List Nat) :
    List (List Bool) × List (List Bool) × List (List Bool) :=
  (keySchedule (bytesToBits (keyBytes.take 8)),
   keySchedule (bytesToBits ((keyBytes.drop 8).take 8)),
   keySchedule (bytesToBits ((keyBytes.drop 16).take 8)))

/-- 3DES EDE encryption of a 64-bit block. -/
def tdesEncryptBlock (k : List (List Bool) × List (List Bool) × List (List Bool))
    (bits : List Bool) : List Bool :=
  desEncryptBlock k.2.2 (desDecryptBlock k.2.1 (desEncryptBlock k.1 bits))

/-- 3DES EDE decryption of a 64-bit block. -/
def tdesDecryptBlock (k : List (List Bool) × List (List Bool) × List (List Bool))
    (bits : List Bool) : List Bool :=
  desDecryptBlock k.1 (desEncryptBlock k.2.1 (desDecryptBlock k.2.2 bits))

@[simp] theorem tdesEncryptBlock_length
    (k : List (List Bool) × List (List Bool) × List (List Bool))
    (bits : List Bool) : (tdesEncryptBlock k bits).length = 64 := by
  simp [tdesEncryptBlock, desEncryptBlock]

theorem tdesDecryptBlock_tdesEncryptBlock
    (k : List (List Bool) × List (List Bool) × List (List Bool))
    (bits : List Bool) (h : bits.length = 64) :
    tdesDecryptBlock k (tdesEncryptBlock k bits) = bits := by
  unfold tdesEncryptBlock tdesDecryptBlock
  rw [desDecryptBlock_desEncryptBlock k.2.2 _ (by simp [desDecryptBlock, desEncryptBlock])]
  rw [desEncryptBlock_desDecryptBlock k.2.1 _ (by simp [desEncryptBlock])]
  exact desDecryptBlock_desEncryptBlock k.1 bits h

/-- Encrypt one 8-byte block. -/
def tdesEncryptBytes (k : List (List Bool) × List (List Bool) × List (List Bool))
    (block : List Nat) : List Nat :=
  bitsToBytes (tdesEncryptBlock k (bytesToBits block))

/-- Decrypt one 8-byte block. -/
def tdesDecryptBytes (k : List (List Bool) × List (List Bool) × List (List Bool))
    (block : List Nat) : List Nat :=
  bitsToBytes (tdesDecryptBlock k (bytesToBits block))

theorem tdesDecryptBytes_tdesEncryptBytes
    (k : List (List Bool) × List (List Bool) × List (List Bool))
    (block : List Nat) (hlen : block.length = 8) (hlt : ∀ b ∈ block, b < 256) :
    tdesDecryptBytes k (tdesEncryptBytes k block) = block := by
  unfold tdesEncryptBytes tdesDecryptBytes
  rw [bytesToBits_bitsToBytes _ (by simp)]
  rw [tdesDecryptBlock_tdesEncryptBlock k _ (by simp [hlen])]
  exact bitsToBytes_bytesToBits block hlt

theorem length_flatten_uniform (L : List (List α)) (n : Nat)
    (h : ∀ b ∈ L, b.length = n) : L.flatten.length = L.length * n := by
  induction L with
  | nil => simp
  | cons b t ih =>
    rw [List.flatten_cons, List.length_append, h b (by simp),
      ih (fun x hx => h x (by simp [hx])), List.length_cons]
    ring

theorem chunks_length_mul (n : Nat) (hn : 0 < n) (l : List α)
    (h : l.length % n = 0) : (chunks n l).length * n = l.length := by
  have hu : ∀ b ∈ chunks n l, b.length = n := fun b hb =>
    chunks_length_eq n hn l b h hb
  have := length_flatten_uniform (chunks n l) n hu
  rw [flatten_chunks] at this
  omega

theorem tdesEncryptBytes_length
    (k : List (List Bool) × List (List Bool) × List (List Bool))
    (block : List Nat) : (tdesEncryptBytes k block).length = 8 := by
  unfold tdesEncryptBytes bitsToBytes
  rw [List.length_map]
  have h64 : (tdesEncryptBlock k (bytesToBits block)).length = 64 := by simp
  have := chunks_length_mul 8 (by norm_num) (tdesEncryptBlock k (bytesToBits block))
    (by omega)
  omega

/-- PKCS#7 padding to the 8-byte DES block size, as `cipher.finish()`
applies it. -/
def pkcs7pad (m : List Nat) : List Nat :=
  m ++ List.replicate (8 - m.length % 8) (8 - m.length % 8)

/-- PKCS#7 unpadding: drop as many trailing bytes as the last byte says. -/
def pkcs7unpad (m : List Nat) : List Nat :=
  m.take (m.length - m.getLast?.getD 0)

theorem pkcs7pad_length_mod (m : List Nat) : (pkcs7pad m).length % 8 = 0 := by
  unfold pkcs7pad
  rw [List.length_append, List.length_replicate]
  omega

theorem pkcs7pad_lt (m : List Nat) (hm : ∀ b ∈ m, b < 256) (b : Nat)
    (hb : b ∈ pkcs7pad m) : b < 256 := by
  unfold pkcs7pad at hb
  rcases List.mem_append.mp hb with h | h
  · exact hm b h
  · have := List.eq_of_mem_replicate h
    omega

theorem getLast?_replicate_pos (p a : Nat) (hp : 0 < p) :
    (List.replicate p a).getLast? = some a := by
  cases p with
  | zero => omega
  | succ q =>
    rw [List.replicate_succ' q a]
    exact List.getLast?_concat _

theorem pkcs7unpad_pkcs7pad (m : List Nat) : pkcs7unpad (pkcs7pad m) = m := by
  unfold pkcs7unpad pkcs7pad
  have hp : 0 < 8 - m.length % 8 := by omega
  rw [List.getLast?_append, getLast?_replicate_pos _ _ hp]
  simp only [Option.or_some, Option.getD_some, List.length_append,
    List.length_replicate]
  rw [show m.length + (8 - m.length % 8) - (8 - m.length % 8) = m.length by omega]
  exact List.take_left' rfl

/-- ECB encryption over the padded byte stream, one 8-byte block at a time,
with the EDE triple-DES block cipher. -/
def tdesEcbEncrypt (keyBytes msg : List Nat) : List Nat :=
  ((chunks 8 (pkcs7pad msg)).map (tdesEncryptBytes (tdesKeys keyBytes))).flatten

/-- ECB decryption plus unpadding, the inverse walk of `tdesEcbEncrypt`. -/
def tdesEcbDecrypt (keyBytes ct : List Nat) : List Nat :=
  pkcs7unpad (((chunks 8 ct).map (tdesDecryptBytes (tdesKeys keyBytes))).flatten)

theorem tdesEcbEncrypt_lt (keyBytes msg : List Nat) (b : Nat)
    (hb : b ∈ tdesEcbEncrypt keyBytes msg) : b < 256 := by
  unfold tdesEcbEncrypt at hb
  rcases List.mem_flatten.mp hb with ⟨c, hc, hbc⟩
  rcases List.mem_map.mp hc with ⟨blk, _, rfl⟩
  exact bitsToBytes_lt _ b hbc

theorem tdesEcb_roundtrip (keyBytes msg : List Nat) (hm : ∀ b ∈ msg, b < 256) :
    tdesEcbDecrypt keyBytes (tdesEcbEncrypt keyBytes msg) = msg := by
  unfold tdesEcbEncrypt tdesEcbDecrypt
  rw [chunks_flatten 8 (by norm_num) _
    (by intro c hc
        rcases List.mem_map.mp hc with ⟨blk, _, rfl⟩
        exact tdesEncryptBytes_length _ blk)]
  rw [List.map_map]
  have hmod := pkcs7pad_length_mod msg
  have hblocks : ∀ c ∈ chunks 8 (pkcs7pad msg), c.length = 8 := fun c hc =>
    chunks_length_eq 8 (by norm_num) _ c hmod hc
  have hltc : ∀ c ∈ chunks 8 (pkcs7pad msg), ∀ b ∈ c, b < 256 := fun c hc b hb =>
    pkcs7pad_lt msg hm b (mem_of_mem_chunks 8 _ c b hc hb)
  have key : (chunks 8 (pkcs7pad msg)).map
      (tdesDecryptBytes (tdesKeys keyBytes) ∘ tdesEncryptBytes (tdesKeys keyBytes)) =
      (chunks 8 (pkcs7pad msg)).map id := by
    apply List.map_congr_left
    intro c hc
    exact tdesDecryptBytes_tdesEncryptBytes _ c (hblocks c hc) (hltc c hc)
  rw [key, List.map_id, flatten_chunks]
  exact pkcs7unpad_pkcs7pad msg

/-! ## Base64

The standard alphabet and padding used by `forge.util.encode64`. -/

/-- Character of one 6-bit value in the standard base64 alphabet. -/
def sextetChar (s : Nat) : Char :=
  "ABCDEFGHIJKLMNOPQRSTUVWXYZabcdefghijklmnopqrstuvwxyz0123456789+/".toList.getD s '?'

/-- 6-bit value of one base64 character. -/
def charSextet (c : Char) : Nat :=
  let n := c.toNat
  if 65 ≤ n ∧ n ≤ 90 then n - 65
  else if 97 ≤ n ∧ n ≤ 122 then n - 97 + 26
  else if 48 ≤ n ∧ n ≤ 57 then n - 48 + 52
  else if n = 43 then 62
  else 63

theorem charSextet_sextetChar (s : Nat) (h : s < 64) :
    charSextet (sextetChar s) = s := by
  have : ∀ t : Fin 64, charSextet (sextetChar t.val) = t.val := by decide
  exact this ⟨s, h⟩

theorem sextetChar_ne_eq (s : Nat) (h : s < 64) : sextetChar s ≠ '=' := by
  have : ∀ t : Fin 64, sextetChar t.val ≠ '=' := by decide
  exact this ⟨s, h⟩

/-- Encode up to three bytes as four base64 characters. -/
def encB64Chunk : List Nat → List Char
  | [a] => [sextetChar (a / 4), sextetChar (a % 4 * 16), '=', '=']
  | [a, b] => [sextetChar (a / 4), sextetChar (a % 4 * 16 + b / 16),
      sextetChar (b % 16 * 4), '=']
  | [a, b, c] => [sextetChar (a / 4), sextetChar (a % 4 * 16 + b / 16),
      sextetChar (b % 16 * 4 + c / 64), sextetChar (c % 64)]
  | _ => []

/-- Decode four base64 characters back into one to three bytes. -/
def decB64Chunk : List Char → List Nat
  | [w, x, y, z] =>
    if y = '=' then [charSextet w * 4 + charSextet x / 16]
    else if z = '=' then
      [charSextet w * 4 + charSextet x / 16,
       charSextet x % 16 * 16 + charSextet y / 4]
    else
      [charSextet w * 4 + charSextet x / 16,
       charSextet x % 16 * 16 + charSextet y / 4,
       charSextet y % 4 * 64 + charSextet z]
  | _ => []

/-- Base64 encoding of a byte list. -/
def encode64 (bytes : List Nat) : String :=
  String.mk ((chunks 3 bytes).map encB64Chunk).flatten

/-- Base64 decoding of a string. -/
def decode64 (s : String) : List Nat :=
  ((chunks 4 s.toList).map decB64Chunk).flatten

theorem decB64Chunk_encB64Chunk (blk : List Nat) (hne : blk ≠ [])
    (hlen : blk.length ≤ 3) (hlt : ∀ b ∈ blk, b < 256) :
    decB64Chunk (encB64Chunk blk) = blk := by
  match blk, hne with
  | [a], _ =>
    have ha : a < 256 := hlt a (by simp)
    unfold encB64Chunk decB64Chunk
    dsimp only
    rw [if_pos rfl]
    rw [charSextet_sextetChar (a / 4) (by omega),
      charSextet_sextetChar (a % 4 * 16) (by omega)]
    congr 1
    omega
  | [a, b], _ =>
    have ha : a < 256 := hlt a (by simp)
    have hb : b < 256 := hlt b (by simp)
    unfold encB64Chunk decB64Chunk
    dsimp only
    rw [if_neg (sextetChar_ne_eq (b % 16 * 4) (by omega)), if_pos rfl]
    rw [charSextet_sextetChar (a / 4) (by omega),
      charSextet_sextetChar (a % 4 * 16 + b / 16) (by omega),
      charSextet_sextetChar (b % 16 * 4) (by omega)]
    congr 1
    · omega
    · congr 1
      omega
  | [a, b, c], _ =>
    have ha : a < 256 := hlt a (by simp)
    have hb : b < 256 := hlt b (by simp)
    have hc : c < 256 := hlt c (by simp)
    unfold encB64Chunk decB64Chunk
    dsimp only
    rw [if_neg (sextetChar_ne_eq (b % 16 * 4 + c / 64) (by omega)),
      if_neg (sextetChar_ne_eq (c % 64) (by omega))]
    rw [charSextet_sextetChar (a / 4) (by omega),
      charSextet_sextetChar (a % 4 * 16 + b / 16) (by omega),
      charSextet_sextetChar (b % 16 * 4 + c / 64) (by omega),
      charSextet_sextetChar (c % 64) (by omega)]
    congr 1
    · omega
    · congr 1
      · omega
      · congr 1
        omega
  | a :: b :: c :: d :: t, _ => simp at hlen

theorem encB64Chunk_length (blk : List Nat) (hne : blk ≠ [])
    (hlen : blk.length ≤ 3) : (encB64Chunk blk).length = 4 := by
  match blk, hne with
  | [a], _ => rfl
  | [a, b], _ => rfl
  | [a, b, c], _ => rfl
  | a :: b :: c :: d :: t, _ => simp at hlen

theorem chunks_ne_nil (n : Nat) (l : List α) (c : List α)
    (hc : c ∈ chunks n l) : c ≠ [] := by
  generalize hN : l.length = N
  induction N using Nat.strong_induction_on generalizing l with
  | _ N ih =>
    cases l with
    | nil => simp at hc
    | cons a rest =>
      rw [chunks_cons] at hc
      rcases List.mem_cons.mp hc with h | h
      · subst h; simp
      · exact ih (rest.drop (n - 1)).length (by simp at hN ⊢; omega) _ h rfl

theorem decode64_encode64 (bytes : List Nat) (hlt : ∀ b ∈ bytes, b < 256) :
    decode64 (encode64 bytes) = bytes := by
  unfold encode64 decode64
  rw [show (String.mk ((chunks 3 bytes).map encB64Chunk).flatten).toList =
      ((chunks 3 bytes).map encB64Chunk).flatten from rfl]
  rw [chunks_flatten 4 (by norm_num) _
    (by intro c hc
        rcases List.mem_map.mp hc with ⟨blk, hblk, rfl⟩
        exact encB64Chunk_length blk (chunks_ne_nil 3 bytes blk hblk)
          (by simpa using chunks_length_le 3 bytes blk hblk))]
  rw [List.map_map]
  have key : (chunks 3 bytes).map (decB64Chunk ∘ encB64Chunk) =
      (chunks 3 bytes).map id := by
    apply List.map_congr_left
    intro blk hblk
    exact decB64Chunk_encB64Chunk blk (chunks_ne_nil 3 bytes blk hblk)
      (by simpa using chunks_length_le 3 bytes blk hblk)
      (fun b hb => hlt b (mem_of_mem_chunks 3 bytes blk b hblk hb))
  rw [key, List.map_id, flatten_chunks]

/-! ## Repository data model

Types from the declaration file shipped with the repository (enums
`AuthorizationMode`, `PaymentStatus`, `PaymentAction` and the
`CardPaymentData` interface), with the enums' string values. -/

/-- Authorization modes declared by the repository. -/
inductive AuthorizationMode where
  | PIN
  | OTP
  | REDIRECT
  | NONE
  | AVS_NOAUTH
deriving DecidableEq

/-- String value of each `AuthorizationMode` enum member. -/
def modeString : AuthorizationMode → String
  | .PIN => "pin"
  | .OTP => "otp"
  | .REDIRECT => "redirect"
  | .NONE => "none"
  | .AVS_NOAUTH => "avs_noauth"

/-- Canonical payment statuses declared by the repository. -/
inductive PaymentStatus where
  | PENDING
  | SUCCESS
  | FAILED
  | REQUIRES_AUTH
  | REQUIRES_VALIDATION
deriving DecidableEq

/-- String value of each `PaymentStatus` enum member. -/
def paymentStatusString : PaymentStatus → String
  | .PENDING => "pending"
  | .SUCCESS => "success"
  | .FAILED => "failed"
  | .REQUIRES_AUTH => "requires_auth"
  | .REQUIRES_VALIDATION => "requires_validation"

/-- Canonical next actions declared by the repository. -/
inductive PaymentAction where
  | VALIDATE_OTP
  | VALIDATE_PIN
  | REDIRECT
  | COMPLETE
  | FAILED
  | VALIDATE_AVS
  | VOID
deriving DecidableEq

/-- String value of each `PaymentAction` enum member. -/
def paymentActionString : PaymentAction → String
  | .VALIDATE_OTP => "validate_otp"
  | .VALIDATE_PIN => "validate_pin"
  | .REDIRECT => "redirect"
  | .COMPLETE => "complete"
  | .FAILED => "failed"
  | .VALIDATE_AVS => "validate_avs"
  | .VOID => "void"

/-- The nested `authorization` field of `CardPaymentData`. -/
structure CardAuthorization where
  mode : AuthorizationMode
  pin : Option String
  otp : Option String
  city : Option String
  address : Option String
  state : Option String
  country : Option String
  zipcode : Option Nat
deriving DecidableEq

/-- The `CardPaymentData` interface; optional fields are `Option`. -/
structure CardPaymentData where
  card_number : String
  cvv : String
  expiry_month : String
  expiry_year : String
  amount : Nat
  email : String
  tx_ref : String
  currency : Option String
  fullname : Option String
  preauthorize : Option Bool
  authorization : Option CardAuthorization
deriving DecidableEq

/-- JS truthiness of an optional string: absent and empty are falsy. -/
def truthyStr : Option String → Option String
  | some s => if s = "" then none else some s
  | none => none

/-- JS truthiness of an optional number: absent and zero are falsy. -/
def truthyNat : Option Nat → Option Nat
  | some n => if n = 0 then none else some n
  | none => none

/-- Lowercasing as `toLocaleLowerCase` performs it on the mode strings. -/
def lowerString (s : String) : String := String.mk (s.toList.map Char.toLower)

/-- The `x || d` defaulting pattern of the source. -/
def jsOr (o : Option String) (d : String) : String :=
  match o with
  | some s => if s = "" then d else s
  | none => d

/-- The authorization object `chargeCard` adds to the card data (lines
80-98): the lowercased mode, `pin` and `otp` only when the matching mode was
chosen and the field is truthy, and the truthy address fields. -/
structure BuiltAuthorization where
  mode : String
  pin : Option String
  otp : Option String
  city : Option String
  address : Option String
  state : Option String
  country : Option String
  zipcode : Option Nat
deriving DecidableEq

def buildAuthorization (a : CardAuthorization) : BuiltAuthorization :=
  { mode := lowerString (modeString a.mode)
    pin := if a.mode = AuthorizationMode.PIN then truthyStr a.pin else none
    otp := if a.mode = AuthorizationMode.OTP then truthyStr a.otp else none
    city := truthyStr a.city
    address := truthyStr a.address
    state := truthyStr a.state
    country := truthyStr a.country
    zipcode := truthyNat a.zipcode }

/-- The `cardData` object `chargeCard` assembles (lines 61-98), fields in
insertion order.  `redirect_url` is read from the environment, `currency`
defaults to RWF, `amount` is stringified, and `device_fingerprint` and
`client_ip` are hardcoded constants. -/
structure CardData where
  card_number : String
  cvv : String
  expiry_month : String
  expiry_year : String
  email : String
  currency : String
  amount : String
  tx_ref : String
  fullname : Option String
  redirect_url : Option String
  payment_type : String
  preauthorize : Option Bool
  device_fingerprint : String
  client_ip : String
  authorization : Option BuiltAuthorization
deriving DecidableEq

def buildCardData (redirectUrl : Option String) (data : CardPaymentData) :
    CardData :=
  { card_number := data.card_number
    cvv := data.cvv
    expiry_month := data.expiry_month
    expiry_year := data.expiry_year
    email := data.email
    currency := jsOr data.currency "RWF"
    amount := toString data.amount
    tx_ref := data.tx_ref
    fullname := data.fullname
    redirect_url := redirectUrl
    payment_type := "card"
    preauthorize := data.preauthorize
    device_fingerprint := "device_fingerprint"
    client_ip := "127.0.0.1"
    authorization := data.authorization.map buildAuthorization }

/-! ## JSON serialization (`JSON.stringify` over the card data) -/

def hexDigit (n : Nat) : Char := "0123456789abcdef".toList.getD n '0'

/-- Escape one character the way `JSON.stringify` does. -/
def escapeChar (c : Char) : List Char :=
  if c = '"' then ['\\', '"']
  else if c = '\\' then ['\\', '\\']
  else if c.toNat ≥ 32 then [c]
  else if c.toNat = 8 then ['\\', 'b']
  else if c.toNat = 9 then ['\\', 't']
  else if c.toNat = 10 then ['\\', 'n']
  else if c.toNat = 12 then ['\\', 'f']
  else if c.toNat = 13 then ['\\', 'r']
  else ['\\', 'u', '0', '0', hexDigit (c.toNat / 16), hexDigit (c.toNat % 16)]

def jsonEscape (s : String) : String := String.mk (s.toList.map escapeChar).flatten

def jsonStr (s : String) : String := "\"" ++ jsonEscape s ++ "\""

def jsonBool (b : Bool) : String := cond b "true" "false"

def jsonNat (n : Nat) : String := toString n

/-- Render an object from its ordered fields; `none` entries are the
`undefined`-valued keys `JSON.stringify` drops. -/
def jsonObj (fs : List (Option (String × String))) : String :=
  "\x7b" ++
    String.intercalate "," ((fs.filterMap id).map (fun kv => jsonStr kv.1 ++ ":" ++ kv.2)) ++
    "\x7d"

/-- JSON of the built authorization object, keys in insertion order. -/
def jsonOfAuthorization (a : BuiltAuthorization) : String :=
  jsonObj [some ("mode", jsonStr a.mode),
    a.pin.map (fun v => ("pin", jsonStr v)),
    a.otp.map (fun v => ("otp", jsonStr v)),
    a.city.map (fun v => ("city", jsonStr v)),
    a.address.map (fun v => ("address", jsonStr v)),
    a.state.map (fun v => ("state", jsonStr v)),
    a.country.map (fun v => ("country", jsonStr v)),
    a.zipcode.map (fun v => ("zipcode", jsonNat v))]

/-- JSON of the card data, keys in insertion order, `undefined` keys
dropped. -/
def jsonOfCardData (cd : CardData) : String :=
  jsonObj [some ("card_number", jsonStr cd.card_number),
    some ("cvv", jsonStr cd.cvv),
    some ("expiry_month", jsonStr cd.expiry_month),
    some ("expiry_year", jsonStr cd.expiry_year),
    some ("email", jsonStr cd.email),
    some ("currency", jsonStr cd.currency),
    some ("amount", jsonStr cd.amount),
    some ("tx_ref", jsonStr cd.tx_ref),
    cd.fullname.map (fun v => ("fullname", jsonStr v)),
    cd.redirect_url.map (fun v => ("redirect_url", jsonStr v)),
    some ("payment_type", jsonStr cd.payment_type),
    cd.preauthorize.map (fun v => ("preauthorize", jsonBool v)),
    some ("device_fingerprint", jsonStr cd.device_fingerprint),
    some ("client_ip", jsonStr cd.client_ip),
    cd.authorization.map (fun a => ("authorization", jsonOfAuthorization a))]

/-- Byte view of a string as `forge.util.createBuffer` stores it: each char
code reduced mod 256 (the raw encoding); on the ASCII payloads involved this
coincides with the UTF-8 byte sequence. -/
def strBytes (s : String) : List Nat := s.toList.map (fun c => c.toNat % 256)

theorem strBytes_lt (s : String) (b : Nat) (hb : b ∈ strBytes s) : b < 256 := by
  rcases List.mem_map.mp hb with ⟨c, _, rfl⟩
  exact Nat.mod_lt _ (by norm_num)

/-! ## The encryption step and the posted envelope -/

/-- The `encryptCardData` method (src/flutterwaveApiUtils.ts lines 42-53):
stringify the payload, run the forge `3DES-ECB` cipher over it under the
configured key with an empty IV, and base64 the cipher output. -/
def encryptCardData (encryptionKey : String) (payload : CardData) : String :=
  encode64 (tdesEcbEncrypt (strBytes encryptionKey) (strBytes (jsonOfCardData payload)))

/-- The request body `chargeCard` posts to `/charges?type=card`
(lines 100-107). -/
structure ChargeEnvelope where
  client : String
  client_ip : String
  device_fingerprint : String
  alg : String
deriving DecidableEq

def chargeCardEnvelope (encryptionKey : String) (redirectUrl : Option String)
    (data : CardPaymentData) : ChargeEnvelope :=
  let cardData := buildCardData redirectUrl data
  { client := encryptCardData encryptionKey cardData
    client_ip := cardData.client_ip
    device_fingerprint := cardData.device_fingerprint
    alg := "3DES-24" }

/-! ## Gateway responses and their interpretation -/

/-- The inner `data` object of a gateway response body. -/
structure InnerData where
  status : Option String
  flw_ref : Option String
deriving DecidableEq

/-- The `meta.authorization` hint of a gateway response body. -/
structure AuthHint where
  mode : Option String
deriving DecidableEq

/-- The `meta` object of a gateway response body. -/
structure MetaData where
  authorization : Option AuthHint
deriving DecidableEq

/-- A gateway response body as the operations read it. -/
structure GatewayBody where
  status : Option String
  message : Option String
  data : Option InnerData
  meta : Option MetaData
deriving DecidableEq

def GatewayBody.innerStatus (b : GatewayBody) : Option String :=
  b.data.bind InnerData.status

def GatewayBody.innerFlwRef (b : GatewayBody) : Option String :=
  b.data.bind InnerData.flw_ref

def GatewayBody.authModeHint (b : GatewayBody) : Option String :=
  (b.meta.bind MetaData.authorization).bind AuthHint.mode

/-- The error type every operation throws, `ApiError(httpStatus.BAD_REQUEST,
message)`. -/
structure ApiError where
  statusCode : Nat
  message : String
deriving DecidableEq

/-- Message of the `ApiError` that escapes an operation whose body says
`status: "error"`: the error thrown with the body message is re-wrapped by
the catch block as `error.response?.data?.message || error.message ||
fallback`, so an absent or empty gateway message falls back to the
per-operation text. -/
def gwMessage (m : Option String) (fallback : String) : String :=
  match m with
  | some s => if s = "" then fallback else s
  | none => fallback

/-- Everything `chargeCard` can hand back to its caller. -/
inductive ChargeOutcome where
  | failed (e : ApiError)
  | requiresValidation (body : GatewayBody) (validationMode : String)
      (flwRef : Option String)
  | returned (body : GatewayBody)
deriving DecidableEq

def ChargeOutcome.isFailed : ChargeOutcome → Bool
  | .failed _ => true
  | _ => false

/-- Response handling of `chargeCard` (lines 113-135 plus the catch block):
throw on a top-level `"error"` status; when the request pre-authorized and
the inner status is `"pending"` with a truthy `meta.authorization.mode`,
return the body spread together with `requires_validation: true`, the raw
mode in `validation_mode` and the inner `flw_ref`; otherwise return the raw
body unchanged. -/
def interpretChargeResponse (preauthorize : Option Bool) (body : GatewayBody) :
    ChargeOutcome :=
  if body.status = some "error" then
    ChargeOutcome.failed ⟨400, gwMessage body.message "Card charge failed"⟩
  else if preauthorize = some true ∧ body.innerStatus = some "pending" then
    match truthyStr body.authModeHint with
    | some m => ChargeOutcome.requiresValidation body m body.innerFlwRef
    | none => ChargeOutcome.returned body
  else ChargeOutcome.returned body

/-- The `chargeCard` operation as a function of the caller's data and the
gateway's response body: it always builds and posts the envelope (the source
has no local validation step before the network call), then interprets the
response. -/
def chargeCard (encryptionKey : String) (redirectUrl : Option String)
    (data : CardPaymentData) (response : GatewayBody) :
    ChargeEnvelope × ChargeOutcome :=
  (chargeCardEnvelope encryptionKey redirectUrl data,
   interpretChargeResponse data.preauthorize response)

/-- Response handling shared by the non-card operations: reject a top-level
`"error"` status with an `ApiError` carrying the gateway message when there
is one (else the per-operation fallback); return every other body
unchanged. -/
def gatewayRespond (fallback : String) (body : GatewayBody) :
    Except ApiError GatewayBody :=
  if body.status = some "error" then
    Except.error ⟨400, gwMessage body.message fallback⟩
  else Except.ok body

/-- `chargeWithToken` response handling (lines 149-175). -/
def chargeWithToken (body : GatewayBody) : Except ApiError GatewayBody :=
  gatewayRespond "Tokenized charge failed" body

/-- `validateCharge` response handling (lines 179-205). -/
def validateCharge (body : GatewayBody) : Except ApiError GatewayBody :=
  gatewayRespond "Charge validation failed" body

/-- `getCardBIN` response handling (lines 210-230). -/
def getCardBIN (body : GatewayBody) : Except ApiError GatewayBody :=
  gatewayRespond "Card BIN lookup failed" body

/-- `verifyPayment` response handling (lines 235-255). -/
def verifyPayment (body : GatewayBody) : Except ApiError GatewayBody :=
  gatewayRespond "Payment verification failed" body

/-- `voidPreauthorization` response handling (lines 260-283). -/
def voidPreauthorization (body : GatewayBody) : Except ApiError GatewayBody :=
  gatewayRespond "Void preauthorization failed" body

/-- Modelled from the spec: the canonical `PaymentAction` a caller derives
from a hinted authorization mode.  The source itself performs no such
mapping; it surfaces the raw mode string in `validation_mode`. -/
def nextActionForMode (m : String) : Option PaymentAction :=
  if m = "otp" then some PaymentAction.VALIDATE_OTP
  else if m = "pin" then some PaymentAction.VALIDATE_PIN
  else if m = "redirect" then some PaymentAction.REDIRECT
  else if m = "avs_noauth" then some PaymentAction.VALIDATE_AVS
  else none

/-! ## Fixtures -/

/-- The authorization block of a PIN-mode payment with no pin supplied. -/
def pinNoPinAuth : CardAuthorization :=
  { mode := AuthorizationMode.PIN, pin := none, otp := none, city := none,
    address := none, state := none, country := none, zipcode := none }

/-- A PIN-mode payment with no pin supplied. -/
def pinNoPinData : CardPaymentData :=
  { card_number := "4556052704172643", cvv := "899", expiry_month := "01",
    expiry_year := "32", amount := 100, email := "a@b.rw", tx_ref := "tx-1",
    currency := none, fullname := none, preauthorize := some true,
    authorization := some pinNoPinAuth }

/-- A pre-authorizing payment with no authorization block. -/
def exChargeData : CardPaymentData :=
  { card_number := "4556052704172643", cvv := "899", expiry_month := "01",
    expiry_year := "32", amount := 100, email := "a@b.rw", tx_ref := "tx-2",
    currency := none, fullname := none, preauthorize := some true,
    authorization := none }

/-- A gateway body reporting a completed charge. -/
def exSuccessfulBody : GatewayBody :=
  { status := some "success", message := none,
    data := some { status := some "successful", flw_ref := none },
    meta := none }

/-- A gateway body with a terminal rejection. -/
def exErrorBody : GatewayBody :=
  { status := some "error", message := some "Invalid card", data := none,
    meta := none }

/-- The spec's pending OTP test body. -/
def exPendingOtpBody : GatewayBody :=
  { status := some "success", message := none,
    data := some { status := some "pending", flw_ref := some "FLW123" },
    meta := some { authorization := some { mode := some "otp" } } }

/-- A gateway body with an unrecognized inner status. -/
def exUnknownBody : GatewayBody :=
  { status := some "success", message := none,
    data := some { status := some "odd_state", flw_ref := none },
    meta := none }

/-- A validate-charge answer that asks for validation again. -/
def exRevalidationBody : GatewayBody :=
  { status := some "success", message := none,
    data := some { status := some "pending", flw_ref := some "FLWX" },
    meta := some { authorization := some { mode := some "otp" } } }

/-! ## Claims -/

/-- C1, counterexample: the claim fails on the code.  With
`authorization.mode = PIN` and no `pin`, `chargeCard` raises no
`ValidationError`: the outcome on a success body is the raw body returned
(no failure of any kind), and the outcome differs between gateway answers,
so the network exchange is what decides the result — nothing fails before
it. -/
theorem chargeCard_pin_without_pin_proceeds :
    (chargeCard "testkey" (some "https://cb") pinNoPinData exSuccessfulBody).2 =
      ChargeOutcome.returned exSuccessfulBody ∧
    (chargeCard "testkey" (some "https://cb") pinNoPinData exSuccessfulBody).2.isFailed
      = false ∧
    (chargeCard "testkey" (some "https://cb") pinNoPinData exErrorBody).2 ≠
      (chargeCard "testkey" (some "https://cb") pinNoPinData exSuccessfulBody).2 := by
  refine ⟨rfl, rfl, ?_⟩
  decide

/-- C1, amended: `chargeCard` performs no authorization-consistency
validation.  For PIN mode without a pin the built card data simply omits the
`pin` field, the envelope is still produced, and the result is the
interpretation of whatever body the gateway returns. -/
theorem chargeCard_no_authorization_validation
    (key : String) (ru : Option String) (data : CardPaymentData)
    (a : CardAuthorization) (body : GatewayBody)
    (ha : data.authorization = some a) (hm : a.mode = AuthorizationMode.PIN)
    (hp : a.pin = none) :
    (buildCardData ru data).authorization = some
      { mode := "pin", pin := none, otp := none, city := truthyStr a.city,
        address := truthyStr a.address, state := truthyStr a.state,
        country := truthyStr a.country, zipcode := truthyNat a.zipcode } ∧
    chargeCard key ru data body =
      (chargeCardEnvelope key ru data,
       interpretChargeResponse data.preauthorize body) := by
  refine ⟨?_, rfl⟩
  show (data.authorization.map buildAuthorization) = _
  rw [ha]
  show some (buildAuthorization a) = _
  unfold buildAuthorization
  rw [hm, hp]
  rfl

/-- C1, amended, witness at the PIN-without-pin fixture. -/
theorem chargeCard_no_authorization_validation_witness :
    (buildCardData (some "https://cb") pinNoPinData).authorization = some
      { mode := "pin", pin := none, otp := none, city := none,
        address := none, state := none, country := none, zipcode := none } ∧
    chargeCard "testkey" (some "https://cb") pinNoPinData exSuccessfulBody =
      (chargeCardEnvelope "testkey" (some "https://cb") pinNoPinData,
       interpretChargeResponse pinNoPinData.preauthorize exSuccessfulBody) := by
  have h := chargeCard_no_authorization_validation "testkey" (some "https://cb")
    pinNoPinData pinNoPinAuth exSuccessfulBody (by rfl) (by rfl) (by rfl)
  exact h

/-- C2: for a non-error body with inner status `"pending"`, a truthy mode
hint and a pre-authorizing request, `chargeCard` marks the result as
requiring validation, surfaces the hinted mode unchanged in
`validation_mode`, and propagates the gateway's `flw_ref` untouched; the
spec's derivation table applied to the hinted modes yields the canonical
actions it claims. -/
theorem chargeCard_pending_preauth_requires_validation
    (key : String) (ru : Option String) (data : CardPaymentData)
    (body : GatewayBody) (m : String)
    (hpre : data.preauthorize = some true)
    (hs : body.status ≠ some "error")
    (hp : body.innerStatus = some "pending")
    (hm : body.authModeHint = some m) (hm0 : m ≠ "") :
    (chargeCard key ru data body).2 =
      ChargeOutcome.requiresValidation body m body.innerFlwRef ∧
    nextActionForMode "otp" = some PaymentAction.VALIDATE_OTP ∧
    nextActionForMode "pin" = some PaymentAction.VALIDATE_PIN ∧
    nextActionForMode "redirect" = some PaymentAction.REDIRECT ∧
    nextActionForMode "avs_noauth" = some PaymentAction.VALIDATE_AVS := by
  refine ⟨?_, rfl, rfl, rfl, rfl⟩
  show interpretChargeResponse data.preauthorize body = _
  rw [hpre]
  unfold interpretChargeResponse
  rw [if_neg hs, if_pos ⟨rfl, hp⟩]
  have ht : truthyStr body.authModeHint = some m := by
    rw [hm]
    unfold truthyStr
    dsimp only
    rw [if_neg hm0]
  rw [ht]

/-- C2, witness at the spec's OTP test body. -/
theorem chargeCard_pending_preauth_requires_validation_witness :
    (chargeCard "testkey" (some "https://cb") exChargeData exPendingOtpBody).2 =
      ChargeOutcome.requiresValidation exPendingOtpBody "otp" (some "FLW123") ∧
    nextActionForMode "otp" = some PaymentAction.VALIDATE_OTP ∧
    nextActionForMode "pin" = some PaymentAction.VALIDATE_PIN ∧
    nextActionForMode "redirect" = some PaymentAction.REDIRECT ∧
    nextActionForMode "avs_noauth" = some PaymentAction.VALIDATE_AVS := by
  have h := chargeCard_pending_preauth_requires_validation "testkey"
    (some "https://cb") exChargeData exPendingOtpBody "otp" rfl (by decide)
    rfl rfl (by decide)
  exact h

/-- C3, counterexample: the claim fails on the code.  On the spec's success
body the code returns the gateway body unchanged: no canonical
`SUCCESS`/`COMPLETE` pair is produced anywhere — the only status in the
result is the gateway's own `"successful"` string, which is not the
`PaymentStatus.SUCCESS` value `"success"`, and nothing carries a
`PaymentAction`. -/
theorem chargeCard_successful_no_canonical_mapping :
    interpretChargeResponse (some true) exSuccessfulBody =
      ChargeOutcome.returned exSuccessfulBody ∧
    exSuccessfulBody.innerStatus = some "successful" ∧
    paymentStatusString PaymentStatus.SUCCESS = "success" ∧
    paymentActionString PaymentAction.COMPLETE = "complete" ∧
    ("successful" : String) ≠ "success" := by
  refine ⟨rfl, rfl, rfl, rfl, ?_⟩
  decide

/-- C3, amended: for any non-error body whose inner status is
`"successful"` (any `preauthorize` flag), `chargeCard` returns the gateway
body unchanged; success is conveyed only by the raw `data.status` field and
no validation flag or canonical status is attached. -/
theorem chargeCard_successful_passthrough (p : Option Bool)
    (body : GatewayBody) (hs : body.status ≠ some "error")
    (hsucc : body.innerStatus = some "successful") :
    interpretChargeResponse p body = ChargeOutcome.returned body := by
  unfold interpretChargeResponse
  have h2 : ¬(p = some true ∧ body.innerStatus = some "pending") := by
    rintro ⟨-, h⟩
    rw [hsucc] at h
    exact absurd h (by decide)
  rw [if_neg hs, if_neg h2]

/-- C3, amended, witness. -/
theorem chargeCard_successful_passthrough_witness :
    interpretChargeResponse (some true) exSuccessfulBody =
      ChargeOutcome.returned exSuccessfulBody :=
  chargeCard_successful_passthrough (some true) exSuccessfulBody (by decide) rfl

/-- C4, counterexample: the claim fails on the code.  A body with the
unknown inner status `"odd_state"` is not treated as `FAILED` with a
generic message: the code returns the raw body unchanged and the outcome is
not a failure. -/
theorem chargeCard_unknown_status_not_failed :
    interpretChargeResponse (some true) exUnknownBody =
      ChargeOutcome.returned exUnknownBody ∧
    (interpretChargeResponse (some true) exUnknownBody).isFailed = false :=
  ⟨rfl, rfl⟩

/-- C4, amended: every body whose top-level status is not `"error"` and
whose inner status is not `"pending"` — unknown statuses included — is
passed through verbatim: not converted to `FAILED`, and not marked with
anything either (so also never marked as success). -/
theorem chargeCard_unknown_status_passthrough (p : Option Bool)
    (body : GatewayBody) (hs : body.status ≠ some "error")
    (hp : body.innerStatus ≠ some "pending") :
    interpretChargeResponse p body = ChargeOutcome.returned body := by
  unfold interpretChargeResponse
  have h2 : ¬(p = some true ∧ body.innerStatus = some "pending") := by
    rintro ⟨-, h⟩
    exact hp h
  rw [if_neg hs, if_neg h2]

/-- C4, amended, witness. -/
theorem chargeCard_unknown_status_passthrough_witness :
    interpretChargeResponse (some true) exUnknownBody =
      ChargeOutcome.returned exUnknownBody :=
  chargeCard_unknown_status_passthrough (some true) exUnknownBody (by decide)
    (by decide)

/-- C5: whenever the gateway body's top-level status is `"error"` and it
carries a non-empty message, every operation rejects with an `ApiError`
carrying that message verbatim — none of them resolves successfully. -/
theorem gateway_error_always_rejected (p : Option Bool) (body : GatewayBody)
    (msg : String) (hs : body.status = some "error")
    (hm : body.message = some msg) (h0 : msg ≠ "") :
    interpretChargeResponse p body = ChargeOutcome.failed ⟨400, msg⟩ ∧
    chargeWithToken body = Except.error ⟨400, msg⟩ ∧
    validateCharge body = Except.error ⟨400, msg⟩ ∧
    getCardBIN body = Except.error ⟨400, msg⟩ ∧
    verifyPayment body = Except.error ⟨400, msg⟩ ∧
    voidPreauthorization body = Except.error ⟨400, msg⟩ := by
  have hmsg : ∀ fb, gwMessage body.message fb = msg := by
    intro fb
    rw [hm]
    unfold gwMessage
    dsimp only
    rw [if_neg h0]
  refine ⟨?_, ?_, ?_, ?_, ?_, ?_⟩ <;>
    simp [interpretChargeResponse, chargeWithToken, validateCharge, getCardBIN,
      verifyPayment, voidPreauthorization, gatewayRespond, hs, hmsg]

/-- C5, witness at the `Invalid card` rejection body. -/
theorem gateway_error_always_rejected_witness :
    interpretChargeResponse (some true) exErrorBody =
      ChargeOutcome.failed ⟨400, "Invalid card"⟩ ∧
    chargeWithToken exErrorBody = Except.error ⟨400, "Invalid card"⟩ ∧
    validateCharge exErrorBody = Except.error ⟨400, "Invalid card"⟩ ∧
    getCardBIN exErrorBody = Except.error ⟨400, "Invalid card"⟩ ∧
    verifyPayment exErrorBody = Except.error ⟨400, "Invalid card"⟩ ∧
    voidPreauthorization exErrorBody = Except.error ⟨400, "Invalid card"⟩ := by
  have h := gateway_error_always_rejected (some true) exErrorBody
    "Invalid card" rfl rfl (by decide)
  exact h

/-- C6, counterexample: the claim fails on the code.  When the gateway
answers a `validateCharge` call with another pending/requires-validation
body, the code passes it through as a success value; in particular it never
produces the claimed `FAILED` outcome with message "unexpected
re-validation requested" — that string appears nowhere in the code. -/
theorem validateCharge_no_revalidation_handling :
    validateCharge exRevalidationBody = Except.ok exRevalidationBody ∧
    validateCharge exRevalidationBody ≠
      Except.error ⟨400, "unexpected re-validation requested"⟩ := by
  refine ⟨rfl, ?_⟩
  intro h
  exact Except.noConfusion
    (show (Except.ok exRevalidationBody : Except ApiError GatewayBody) =
      Except.error ⟨400, "unexpected re-validation requested"⟩ from h)

/-- C6, amended: `validateCharge` rejects a top-level `"error"` status with
an `ApiError` and returns every other gateway body unchanged — including a
renewed requires-validation body, which receives no special terminal
handling. -/
theorem validateCharge_passthrough (body : GatewayBody)
    (hs : body.status ≠ some "error") :
    validateCharge body = Except.ok body := by
  unfold validateCharge gatewayRespond
  rw [if_neg hs]

/-- C6, amended, witness. -/
theorem validateCharge_passthrough_witness :
    validateCharge exRevalidationBody = Except.ok exRevalidationBody :=
  validateCharge_passthrough exRevalidationBody (by decide)

/-- C7: the encoder's output equals the base64 encoding of the 3DES-ECB
(empty IV) encryption of the serialized payload under the configured key,
and `chargeCard` wraps it in the fixed `{client, client_ip,
device_fingerprint, alg}` envelope. -/
theorem encryptCardData_envelope (key : String) (ru : Option String)
    (data : CardPaymentData) :
    encryptCardData key (buildCardData ru data) =
      encode64 (tdesEcbEncrypt (strBytes key)
        (strBytes (jsonOfCardData (buildCardData ru data)))) ∧
    chargeCardEnvelope key ru data =
      { client := encryptCardData key (buildCardData ru data),
        client_ip := "127.0.0.1",
        device_fingerprint := "device_fingerprint",
        alg := "3DES-24" } :=
  ⟨rfl, rfl⟩

/-- C8: decrypting the base64-decoded encoder output with the same key and
cipher reproduces the serialized payload byte for byte, for every payload
and key. -/
theorem encryptCardData_roundtrip (key : String) (payload : CardData) :
    tdesEcbDecrypt (strBytes key) (decode64 (encryptCardData key payload)) =
      strBytes (jsonOfCardData payload) := by
  unfold encryptCardData
  rw [decode64_encode64 _ (fun b hb => tdesEcbEncrypt_lt _ _ b hb)]
  exact tdesEcb_roundtrip _ _ (fun b hb => strBytes_lt _ b hb)

/-- C9: the encoder is a pure function of the key and the payload alone
(ECB, empty IV, no randomness), so two evaluations on equal inputs yield
identical ciphertext strings. -/
theorem encryptCardData_deterministic (k1 k2 : String) (p1 p2 : CardData)
    (hk : k1 = k2) (hp : p1 = p2) :
    encryptCardData k1 p1 = encryptCardData k2 p2 := by
  rw [hk, hp]

/-- C9, witness: two calls on the same concrete key and payload. -/
theorem encryptCardData_deterministic_witness :
    encryptCardData "testkeytestkeytestkey24b"
        (buildCardData (some "https://cb") exChargeData) =
      encryptCardData "testkeytestkeytestkey24b"
        (buildCardData (some "https://cb") exChargeData) :=
  encryptCardData_deterministic _ _ _ _ rfl rfl

/-- C10: every request `chargeCard` builds carries the constants
`client_ip = "127.0.0.1"` and `device_fingerprint = "device_fingerprint"`,
for every caller input — `CardPaymentData` has no field that reaches
them. -/
theorem chargeCard_fixed_client_metadata (key : String) (ru : Option String)
    (data : CardPaymentData) :
    (chargeCardEnvelope key ru data).client_ip = "127.0.0.1" ∧
    (chargeCardEnvelope key ru data).device_fingerprint =
      "device_fingerprint" ∧
    (buildCardData ru data).client_ip = "127.0.0.1" ∧
    (buildCardData ru data).device_fingerprint = "device_fingerprint" :=
  ⟨rfl, rfl, rfl, rfl⟩
